import Mathlib

set_option maxRecDepth 100000

/-
  Verification development for the arc request-pipeline engine.

  The Go sources embedded here:
  * package `analytics` (middleware chain, the `recorder` middleware and its
    background task `recordResponse`),
  * package `logs` (`initPlugin`, the store bootstrap).

  Machine integers are modelled as `Int`/`Nat`; Go byte strings as Lean
  `String`/`List Char`; `map[string]T` values that the code only reads through
  `Get`/`Set`/literal-key writes are modelled as association lists whose keys
  stay distinct.  External collaborators (uuid generation, the ip-lookup
  capability, wall-clock time) are passed in as explicit parameters.
-/

namespace Analytics

/-- Custom header name constants, from the Go `const` block. -/
def XSearchQuery : String := "X-Search-Query"

def XSearchID : String := "X-Search-Id"

def XSearchFilters : String := "X-Search-Filters"

def XSearchClick : String := "X-Search-Click"

def XSearchClickPosition : String := "X-Search-Click-Position"

def XSearchConversion : String := "X-Search-Conversion"

def XSearchCustomEvent : String := "X-Search-Custom-Event"

/-- Go's `http.Header.Get`: first value stored under the key, `""` when absent. -/
def hGet (hs : List (String × String)) (k : String) : String :=
  match hs.find? (fun p => p.1 == k) with
  | some p => p.2
  | none => ""

/-- Go's `http.Header.Set`: replace the value stored under the key (append when absent). -/
def hSet (hs : List (String × String)) (k v : String) : List (String × String) :=
  if hs.any (fun p => p.1 == k) then
    hs.map (fun p => if p.1 == k then (k, v) else p)
  else
    hs ++ [(k, v)]

/-- Hex digit test used by `url.QueryUnescape`. -/
def isHexChar (c : Char) : Bool :=
  ('0' ≤ c && c ≤ '9') || ('a' ≤ c && c ≤ 'f') || ('A' ≤ c && c ≤ 'F')

/-- Value of a hex digit. -/
def hexDigitVal (c : Char) : Nat :=
  if '0' ≤ c && c ≤ '9' then c.toNat - '0'.toNat
  else if 'a' ≤ c && c ≤ 'f' then c.toNat - 'a'.toNat + 10
  else if 'A' ≤ c && c ≤ 'F' then c.toNat - 'A'.toNat + 10
  else 0

/-- Character-list core of `url.QueryUnescape`: `%XX` decodes to the byte `XX`
(error when not followed by two hex digits), `+` decodes to a space, every
other character is kept. -/
def unescapeChars : List Char → Option (List Char)
  | [] => some []
  | '%' :: a :: b :: rest =>
    if isHexChar a && isHexChar b then
      (unescapeChars rest).map (fun t => Char.ofNat (16 * hexDigitVal a + hexDigitVal b) :: t)
    else none
  | ['%'] => none
  | ['%', _] => none
  | '+' :: rest => (unescapeChars rest).map (fun t => ' ' :: t)
  | c :: rest => (unescapeChars rest).map (fun t => c :: t)

/-- Go's `url.QueryUnescape` on strings. -/
def queryUnescape (s : String) : Option String :=
  (unescapeChars s.toList).map (fun cs => String.mk cs)

/-- Go's `strings.HasPrefix`, character-list based. -/
def goHasPre (pre s : String) : Bool :=
  pre.toList.isPrefixOf s.toList

/-- The recorder's header-decoding loop: for each header key (in Go's map
iteration order, supplied here as the `order` list) with the `X-Search-`
name prefix, unescape its value and set it back.  On the first unescape
failure the loop stops; the second component reports success.  On failure the
first component is the header map as mutated so far. -/
def unescapeHeaders : List String → List (String × String) → List (String × String) × Bool
  | [], hs => (hs, true)
  | k :: rest, hs =>
    if goHasPre "X-Search-" k then
      match queryUnescape (hGet hs k) with
      | none => (hs, false)
      | some v => unescapeHeaders rest (hSet hs k v)
    else unescapeHeaders rest hs

/-- The `category.Category` tagged variant from `model/category`. -/
inductive Category
  | docs
  | search
  | indicesCat
  | cat
  | clusters
  | misc
  | user
  | permission
  | analyticsCat
  | logsCat
  | streams
deriving DecidableEq, Repr

/-- An incoming request as the recorder sees it: its header map, its request
URI, and the request-context values written by earlier middleware
(`category.FromContext`, `index.FromContext`); `none` models a context
lookup error. -/
structure Request where
  headers : List (String × String)
  requestURI : String
  ctxCategory : Option Category
  ctxIndices : Option (List String)
deriving DecidableEq, Repr

/-- An HTTP response: status code, header map, body bytes. -/
structure Response where
  code : Nat
  headers : List (String × String)
  body : String
deriving DecidableEq, Repr

/-- Arguments handed to the background task `recordResponse`: the doc id, the
original `X-Search-Id` value, the buffered upstream response and the request. -/
structure RecordTask where
  docID : String
  searchID : String
  resp : Response
  req : Request
deriving DecidableEq, Repr

/-- Observable events of one pass through the recorder, in program order. -/
inductive Ev
  | errorWrite
  | innerHandlerCall
  | clientHeaderWrite
  | clientStatusWrite
  | clientBodyWrite
  | spawnRecordTask
deriving DecidableEq, Repr

/-- Modelled from the spec: `util.WriteBackError` (not among the shown
sources) writes an error message with the given status code to the client. -/
def writeBackError (msg : String) (code : Nat) : Response :=
  { code := code, headers := [], body := msg }

/-- Result of one pass through the recorder middleware: the response the
client sees, the background task spawned (if any), and the event trace. -/
structure Outcome where
  resp : Response
  spawned : Option RecordTask
  trace : List Ev
deriving DecidableEq, Repr

/-- The `recorder` middleware from the Go source.  `h` is the inner handler
(modelled as a function from requests to responses), `uuidNew` the value a
fresh `uuid.New().String()` call would produce, `order` the iteration order
of the header map in the decoding loop. -/
def recorder (h : Request → Response) (uuidNew : String) (order : List String)
    (r : Request) : Outcome :=
  match r.ctxCategory with
  | none =>
    { resp := writeBackError "an error occurred while recording search request" 500,
      spawned := none, trace := [Ev.errorWrite] }
  | some reqACL =>
    let res := unescapeHeaders order r.headers
    let r' : Request := { r with headers := res.1 }
    if res.2 = false then
      { resp := h r', spawned := none, trace := [Ev.innerHandlerCall] }
    else
      let searchQuery := hGet r'.headers XSearchQuery
      let searchID := hGet r'.headers XSearchID
      if reqACL ≠ Category.search ∨ (searchQuery = "" ∧ searchID = "") then
        { resp := h r', spawned := none, trace := [Ev.innerHandlerCall] }
      else
        let docID := if searchID = "" then uuidNew else searchID
        let upstream := h r'
        { resp := { code := upstream.code,
                    headers := hSet upstream.headers XSearchID docID,
                    body := upstream.body },
          spawned := some { docID := docID, searchID := searchID, resp := upstream, req := r' },
          trace := [Ev.innerHandlerCall, Ev.clientHeaderWrite, Ev.clientStatusWrite,
                    Ev.clientBodyWrite, Ev.spawnRecordTask] }

/-- Names of the middlewares appearing in the analytics plugin's `list()`. -/
inductive MW
  | classifyCategory
  | classifyOp
  | classifyIndices
  | logsRecorder
  | basicAuth
  | validateIndices
  | validateOperation
  | validateCategory
deriving DecidableEq, Repr

/-- The `list()` function of the analytics plugin: the middleware chain used
for the analytics routes, in declaration order. -/
def list : List MW :=
  [MW.classifyCategory, MW.classifyOp, MW.classifyIndices, MW.logsRecorder,
   MW.basicAuth, MW.validateIndices, MW.validateOperation, MW.validateCategory]

/-- Modelled from the spec: `order.Fifo.Adapt` (not among the shown sources)
applies an ordered middleware list FIFO, the first element becoming the
outermost wrapper around the terminal handler. -/
def adaptFifo {α : Type} (ms : List (α → α)) (h : α) : α :=
  ms.foldr (fun m acc => m acc) h

/-- The `chain.Wrap` method: adapt the terminal handler with `list()`, each middleware
name interpreted by `interp`. -/
def wrap {α : Type} (interp : MW → (α → α)) (h : α) : α :=
  adaptFifo (list.map interp) h

end Analytics

namespace Logs

/-- State of the upstream cluster visible to the store bootstrap: the names
of the indices that exist. -/
structure StoreState where
  indices : List String
deriving DecidableEq, Repr

/-- Results of the external calls `initPlugin` makes: whether the
`IndexExists` call errors, the `GetTotalNodes` result (`none` models an
error), and whether the `CreateIndex` call errors. -/
structure InitEnv where
  existsCheckFails : Bool
  totalNodes : Option Int
  createFails : Bool
deriving DecidableEq, Repr

/-- The second argument of `fmt.Sprintf(config, nodes, nodes-1)` in
`initPlugin`: the `number_of_replicas` value applied when creating the
analytics/logs index. -/
def numberOfReplicas (nodes : Int) : Int := nodes - 1

/-- The `initPlugin` store bootstrap from the Go source: check whether the
index exists; when it does, skip creation and succeed; otherwise look up the
node count and create the index.  Returns the new cluster state and whether
the call succeeded. -/
def initPlugin (indexName : String) (env : InitEnv) (s : StoreState) : StoreState × Bool :=
  if env.existsCheckFails then (s, false)
  else if indexName ∈ s.indices then (s, true)
  else
    match env.totalNodes with
    | none => (s, false)
    | some _ =>
      if env.createFails then (s, false)
      else ({ indices := indexName :: s.indices }, true)

end Logs

namespace Analytics

/-- JSON values.  Numbers are modelled as `Int`: the numeric fields the
recorder reads (`took`, `hits.total`) are integers in search responses. -/
inductive Json
  | null
  | bool (b : Bool)
  | num (n : Int)
  | str (s : String)
  | arr (xs : List Json)
  | obj (fields : List (String × Json))
deriving Repr

/-- White-space skipping for the JSON reader. -/
def skipWs : List Char → List Char
  | [] => []
  | c :: rest =>
    if c = ' ' ∨ c = '\n' ∨ c = '\t' ∨ c = '\r' then skipWs rest else c :: rest

/-- Read the remainder of a JSON string literal (the opening quote already
consumed); returns the decoded characters and the rest of the input. -/
def parseStringBody : List Char → Option (List Char × List Char)
  | [] => none
  | '"' :: rest => some ([], rest)
  | '\\' :: c :: rest =>
    let esc : Option Char :=
      if c = '"' then some '"'
      else if c = '\\' then some '\\'
      else if c = '/' then some '/'
      else if c = 'n' then some '\n'
      else if c = 't' then some '\t'
      else if c = 'r' then some '\r'
      else none
    match esc with
    | none => none
    | some e => (parseStringBody rest).map (fun p => (e :: p.1, p.2))
  | c :: rest => (parseStringBody rest).map (fun p => (c :: p.1, p.2))

/-- Longest run of decimal digits at the front of the input. -/
def takeDigits : List Char → List Char × List Char
  | [] => ([], [])
  | c :: rest =>
    if c.isDigit then
      let p := takeDigits rest
      (c :: p.1, p.2)
    else ([], c :: rest)

/-- Numeric value of a run of decimal digits. -/
def digitsVal (ds : List Char) : Nat :=
  ds.foldl (fun acc c => 10 * acc + (c.toNat - '0'.toNat)) 0

/-- Read a (non-empty) run of decimal digits as a number. -/
def parseDigits (s : List Char) : Option (Nat × List Char) :=
  match takeDigits s with
  | ([], _) => none
  | (d :: ds, rest) => some (digitsVal (d :: ds), rest)

/-- Read a JSON integer (optional minus sign then digits). -/
def parseNumber (s : List Char) : Option (Json × List Char) :=
  match s with
  | '-' :: rest => (parseDigits rest).map (fun p => (Json.num (-(p.1 : Int)), p.2))
  | _ => (parseDigits s).map (fun p => (Json.num (p.1 : Int), p.2))

mutual

/-- Read one JSON value.  `fuel` bounds the recursion; `parseJson` supplies
enough for any input of the given length. -/
def parseVal : Nat → List Char → Option (Json × List Char)
  | 0, _ => none
  | fuel + 1, s =>
    match skipWs s with
    | [] => none
    | c :: rest =>
      if c = 'n' then
        if ['u', 'l', 'l'].isPrefixOf rest then some (Json.null, rest.drop 3) else none
      else if c = 't' then
        if ['r', 'u', 'e'].isPrefixOf rest then some (Json.bool true, rest.drop 3) else none
      else if c = 'f' then
        if ['a', 'l', 's', 'e'].isPrefixOf rest then some (Json.bool false, rest.drop 4) else none
      else if c = '"' then
        (parseStringBody rest).map (fun p => (Json.str (String.mk p.1), p.2))
      else if c = '[' then
        match skipWs rest with
        | ']' :: r2 => some (Json.arr [], r2)
        | r2 => (parseElems fuel r2).map (fun p => (Json.arr p.1, p.2))
      else if c = '{' then
        match skipWs rest with
        | '}' :: r2 => some (Json.obj [], r2)
        | r2 => (parseMembers fuel r2).map (fun p => (Json.obj p.1, p.2))
      else parseNumber (c :: rest)

/-- Read the comma-separated elements of a non-empty JSON array, up to and
including the closing bracket. -/
def parseElems : Nat → List Char → Option (List Json × List Char)
  | 0, _ => none
  | fuel + 1, s =>
    match parseVal fuel s with
    | none => none
    | some (v, r) =>
      match skipWs r with
      | ',' :: r2 => (parseElems fuel r2).map (fun p => (v :: p.1, p.2))
      | ']' :: r2 => some ([v], r2)
      | _ => none

/-- Read the members of a non-empty JSON object, up to and including the
closing brace. -/
def parseMembers : Nat → List Char → Option (List (String × Json) × List Char)
  | 0, _ => none
  | fuel + 1, s =>
    match skipWs s with
    | '"' :: r =>
      match parseStringBody r with
      | none => none
      | some (k, r2) =>
        match skipWs r2 with
        | ':' :: r3 =>
          match parseVal fuel r3 with
          | none => none
          | some (v, r4) =>
            match skipWs r4 with
            | ',' :: r5 => (parseMembers fuel r5).map (fun p => ((String.mk k, v) :: p.1, p.2))
            | '}' :: r5 => some ([(String.mk k, v)], r5)
            | _ => none
        | _ => none
    | _ => none

end

/-- Read a whole JSON document (only trailing white space allowed). -/
def parseJson (s : String) : Option Json :=
  match parseVal (2 * s.length + 4) s.toList with
  | some (v, rest) => if skipWs rest = [] then some v else none
  | none => none

/-- Go's `strings.Contains`, character-list core. -/
def containsSubList (sub : List Char) : List Char → Bool
  | [] => sub.isEmpty
  | c :: rest => sub.isPrefixOf (c :: rest) || containsSubList sub rest

/-- Go's `strings.Contains`. -/
def containsSubstr (s sub : String) : Bool :=
  containsSubList sub.toList s.toList

/-- Go's `bytes.Replace(s, pat, rep, -1)`: replace every non-overlapping
occurrence of `pat`, scanning left to right.  The fuel argument only
bounds the recursion; every step consumes at least one character, so
fuel equal to the input length never runs out. -/
def replaceList (pat rep : List Char) : Nat → List Char → List Char
  | _, [] => []
  | 0, s => s
  | fuel + 1, c :: rest =>
    if pat ≠ [] ∧ pat.isPrefixOf (c :: rest) then
      rep ++ replaceList pat rep fuel (List.drop pat.length (c :: rest))
    else
      c :: replaceList pat rep fuel rest

/-- Go's `bytes.Replace` on strings, all occurrences. -/
def stringReplaceAll (s pat rep : String) : String :=
  String.mk (replaceList pat.toList rep.toList s.toList.length s.toList)

/-- The three `bytes.Replace` calls of `recordResponse`: `_source`→`source`,
then `_type`→`type`, then `_id`→`id`, each over the whole body. -/
def replaceEsFields (body : String) : String :=
  stringReplaceAll (stringReplaceAll (stringReplaceAll body "_source" "source") "_type" "type") "_id" "id"

/-- One hit of the Go `searchResponse` struct: `Source` (a JSON object
decoded as a dynamic map), `Type` and `ID`. -/
structure Hit where
  source : List (String × Json)
  hitType : String
  id : String
deriving Repr

/-- The `Hits` block of the Go `searchResponse` struct. -/
structure HitsBlock where
  total : Int
  hits : List Hit
deriving Repr

/-- The Go `searchResponse` struct (`took` plus the hits block). -/
structure SearchResponse where
  took : Int
  hits : HitsBlock
deriving Repr

/-- The zero value of `searchResponse`. -/
def zeroSearchResponse : SearchResponse :=
  { took := 0, hits := { total := 0, hits := [] } }

/-- The Go `mSearchResponse` struct. -/
structure MSearchResponse where
  responses : List SearchResponse
deriving Repr

/-- Field lookup in a decoded JSON object. -/
def jLookup (fields : List (String × Json)) (k : String) : Option Json :=
  (fields.find? (fun p => p.1 == k)).map (fun p => p.2)

/-- Go `encoding/json` unmarshalling of a looked-up field into an `int`/`float64`
target: absent or `null` leaves the zero value, a number is taken, any other
type is an error. -/
def asNum : Option Json → Option Int
  | none => some 0
  | some Json.null => some 0
  | some (Json.num n) => some n
  | some _ => none

/-- Go `encoding/json` unmarshalling of a looked-up field into a `string` target. -/
def asStr : Option Json → Option String
  | none => some ""
  | some Json.null => some ""
  | some (Json.str s) => some s
  | some _ => none

/-- Go `encoding/json` unmarshalling of a looked-up field into a
`map[string]interface{}` target. -/
def asObjFields : Option Json → Option (List (String × Json))
  | none => some []
  | some Json.null => some []
  | some (Json.obj fs) => some fs
  | some _ => none

/-- Go `encoding/json` unmarshalling of a looked-up field into a slice target. -/
def asArr : Option Json → Option (List Json)
  | none => some []
  | some Json.null => some []
  | some (Json.arr xs) => some xs
  | some _ => none

/-- Unmarshal one element of `hits.hits` into the hit struct. -/
def decodeHitJ : Json → Option Hit
  | Json.null => some { source := [], hitType := "", id := "" }
  | Json.obj fs => do
    let src ← asObjFields (jLookup fs "source")
    let ty ← asStr (jLookup fs "type")
    let i ← asStr (jLookup fs "id")
    some { source := src, hitType := ty, id := i }
  | _ => none

/-- Unmarshal a JSON value into the `searchResponse` struct. -/
def decodeSearchResponseJ : Json → Option SearchResponse
  | Json.null => some zeroSearchResponse
  | Json.obj fs => do
    let took ← asNum (jLookup fs "took")
    match jLookup fs "hits" with
    | none => some { took := took, hits := { total := 0, hits := [] } }
    | some Json.null => some { took := took, hits := { total := 0, hits := [] } }
    | some (Json.obj hf) => do
      let total ← asNum (jLookup hf "total")
      let hitsArr ← asArr (jLookup hf "hits")
      let hits ← hitsArr.mapM decodeHitJ
      some { took := took, hits := { total := total, hits := hits } }
    | some _ => none
  | _ => none

/-- The `json.Unmarshal(respBody, &esResponse)` call for the single-search branch. -/
def decodeSearchResponse (s : String) : Option SearchResponse :=
  (parseJson s).bind decodeSearchResponseJ

/-- Unmarshal a JSON value into the `mSearchResponse` struct. -/
def decodeMSearchResponseJ : Json → Option MSearchResponse
  | Json.null => some { responses := [] }
  | Json.obj fs => do
    let rs ← asArr (jLookup fs "responses")
    let resps ← rs.mapM decodeSearchResponseJ
    some { responses := resps }
  | _ => none

/-- The `json.Unmarshal(respBody, &m)` call for the `_msearch` branch. -/
def decodeMSearchResponse (s : String) : Option MSearchResponse :=
  (parseJson s).bind decodeMSearchResponseJ

/-- String escaping for the JSON writer (quote and backslash; Go additionally
escapes control and HTML characters, which the recorded sources never hold). -/
def escapeChars : List Char → List Char
  | [] => []
  | c :: rest =>
    if c = '"' then '\\' :: '"' :: escapeChars rest
    else if c = '\\' then '\\' :: '\\' :: escapeChars rest
    else c :: escapeChars rest

/-- Lexicographic character-list comparison, for Go's sorted-key map marshal. -/
def charListLe : List Char → List Char → Bool
  | [], _ => true
  | _ :: _, [] => false
  | c :: cs, d :: ds => if c = d then charListLe cs ds else decide (c < d)

/-- Insert a field into a key-sorted field list. -/
def insertByKey (p : String × Json) : List (String × Json) → List (String × Json)
  | [] => [p]
  | q :: rest =>
    if charListLe p.1.toList q.1.toList then p :: q :: rest else q :: insertByKey p rest

/-- Sort a field list by key, as `json.Marshal` does for Go maps. -/
def sortByKey : List (String × Json) → List (String × Json)
  | [] => []
  | p :: rest => insertByKey p (sortByKey rest)

mutual

/-- JSON writer for `json.Marshal` of the decoded dynamic values. -/
def serializeJson : Json → String
  | Json.null => "null"
  | Json.bool true => "true"
  | Json.bool false => "false"
  | Json.num n => toString n
  | Json.str s => "\"" ++ String.mk (escapeChars s.toList) ++ "\""
  | Json.arr xs => "[" ++ serializeElems xs ++ "]"
  | Json.obj fs => "\x7b" ++ serializeFields fs ++ "\x7d"

/-- Comma-joined serialization of array elements. -/
def serializeElems : List Json → String
  | [] => ""
  | [x] => serializeJson x
  | x :: y :: rest => serializeJson x ++ "," ++ serializeElems (y :: rest)

/-- Comma-joined serialization of object fields. -/
def serializeFields : List (String × Json) → String
  | [] => ""
  | [(k, v)] => "\"" ++ String.mk (escapeChars k.toList) ++ "\":" ++ serializeJson v
  | (k, v) :: q :: rest =>
    "\"" ++ String.mk (escapeChars k.toList) ++ "\":" ++ serializeJson v ++ "," ++
      serializeFields (q :: rest)

end

/-- Go's `strconv.ParseBool`. -/
def goParseBool (s : String) : Option Bool :=
  if s = "1" ∨ s = "t" ∨ s = "T" ∨ s = "TRUE" ∨ s = "true" ∨ s = "True" then some true
  else if s = "0" ∨ s = "f" ∨ s = "F" ∨ s = "FALSE" ∨ s = "false" ∨ s = "False" then some false
  else none

/-- Go's `strconv.Atoi` (sign and decimal digits; the model ignores overflow). -/
def goAtoi (s : String) : Option Int :=
  match s.toList with
  | '-' :: ds => (if ds ≠ [] ∧ ds.all Char.isDigit then some (-(digitsVal ds : Int)) else none)
  | '+' :: ds => (if ds ≠ [] ∧ ds.all Char.isDigit then some ((digitsVal ds : Int)) else none)
  | ds => (if ds ≠ [] ∧ ds.all Char.isDigit then some ((digitsVal ds : Int)) else none)

/-- Split a character list at every occurrence of the separator. -/
def splitOnChar (sep : Char) : List Char → List (List Char)
  | [] => [[]]
  | c :: rest =>
    if c = sep then [] :: splitOnChar sep rest
    else
      match splitOnChar sep rest with
      | [] => [[c]]
      | p :: ps => (c :: p) :: ps

/-- Modelled from the spec: the analytics package's `parse` helper for the
`X-Search-Filters` and `X-Search-Custom-Event` headers is not among the shown
sources; the spec describes those headers as comma-separated `k:v` pairs.
Parts without a colon yield no pair, so the empty header yields no pairs. -/
def parseKV (s : String) : List (String × String) :=
  (splitOnChar ',' s.toList).filterMap (fun part =>
    match splitOnChar ':' part with
    | k :: v :: _ => some (String.mk k, String.mk v)
    | _ => none)

/-- A `k:v` map as the stored JSON value. -/
def kvToJson (l : List (String × String)) : Json :=
  Json.obj (l.map (fun p => (p.1, Json.str p.2)))

/-- One recorded hit, as built in the `recordResponse` loop: a map with the
literal keys `id`, `type` and `source`, the latter holding the hit's source
serialized back to JSON (Go marshals map keys sorted). -/
def hitJson (h : Hit) : Json :=
  Json.obj [("id", Json.str h.id), ("type", Json.str h.hitType),
            ("source", Json.str (serializeJson (Json.obj (sortByKey h.source))))]

/-- The "record up to top 10 hits" loop. -/
def hitsRecord (es : SearchResponse) : List Json :=
  (es.hits.hits.take 10).map hitJson

/-- An optional record field (present only when the capability call
succeeded). -/
def optField (k : String) (v : Option Json) : List (String × Json) :=
  match v with
  | some j => [(k, j)]
  | none => []

/-- The `click` record field: present when the `X-Search-Click` header is
non-empty and parses as a bool. -/
def clickField (r : Request) : List (String × Json) :=
  let sc := hGet r.headers XSearchClick
  if sc = "" then []
  else
    match goParseBool sc with
    | some b => [("click", Json.bool b)]
    | none => []

/-- The `click_position` record field: present when the header is non-empty
and parses as an int. -/
def clickPositionField (r : Request) : List (String × Json) :=
  let sp := hGet r.headers XSearchClickPosition
  if sp = "" then []
  else
    match goAtoi sp with
    | some n => [("click_position", Json.num n)]
    | none => []

/-- The `conversion` record field: present when the header is non-empty and
parses as a bool. -/
def conversionField (r : Request) : List (String × Json) :=
  let sc := hGet r.headers XSearchConversion
  if sc = "" then []
  else
    match goParseBool sc with
    | some b => [("conversion", Json.bool b)]
    | none => []

/-- The `custom_events` record field: present when the parsed
`X-Search-Custom-Event` header holds at least one pair. -/
def customEventsField (r : Request) : List (String × Json) :=
  let evs := parseKV (hGet r.headers XSearchCustomEvent)
  if evs.isEmpty then [] else [("custom_events", kvToJson evs)]

/-- The record assembly of `recordResponse`, in program order: `took` first;
then, for an initial search (empty `X-Search-Id`), the full search fields —
aborting the task when the indices context lookup fails; then `ip`, the
optional `location`/`country`, and the follow-up fields. -/
def buildRecord (es : SearchResponse) (searchID : String) (r : Request)
    (now ipAddr : String) (coords country : Option Json) :
    Option (List (String × Json)) :=
  let searchPart : Option (List (String × Json)) :=
    if searchID = "" then
      match r.ctxIndices with
      | none => none
      | some ctxIndices =>
        let searchFilters := parseKV (hGet r.headers XSearchFilters)
        some ([("indices", Json.arr (ctxIndices.map Json.str)),
               ("search_query", Json.str (hGet r.headers XSearchQuery)),
               ("hits_in_response", Json.arr (hitsRecord es)),
               ("total_hits", Json.num es.hits.total),
               ("timestamp", Json.str now)] ++
              (if searchFilters.isEmpty then [] else [("search_filters", kvToJson searchFilters)]))
    else some []
  match searchPart with
  | none => none
  | some sp =>
    some ([("took", Json.num es.took)] ++ sp ++
          [("ip", Json.str ipAddr)] ++ optField "location" coords ++ optField "country" country ++
          clickField r ++ clickPositionField r ++ conversionField r ++ customEventsField r)

/-- The body-decoding step of `recordResponse`: an `_msearch` URI decodes the
body as a response list and keeps the first element (the zero response when
the list is empty); any other URI decodes a single response. -/
def parsedResponse (uri body : String) : Option SearchResponse :=
  if containsSubstr uri "_msearch" then
    (decodeMSearchResponse body).map (fun m => m.responses.headD zeroSearchResponse)
  else
    decodeSearchResponse body

/-- The background task `recordResponse`: rewrite the cached body, decode it,
assemble the record and send it to the store under `docID`.  `none` models
the task aborting after a log line, with no store write; `some (d, rec)`
models the `indexRecord` call with doc id `d` and record `rec`.  The
wall-clock timestamp and the ip-lookup capability results are passed in as
`now`, `ipAddr`, `coords` and `country`. -/
def recordResponse (docID searchID : String) (w : Response) (r : Request)
    (now ipAddr : String) (coords country : Option Json) :
    Option (String × List (String × Json)) :=
  let respBody := replaceEsFields w.body
  match parsedResponse r.requestURI respBody with
  | none => none
  | some es => (buildRecord es searchID r now ipAddr coords country).map (fun rec => (docID, rec))

/-- Lookup of a field of an assembled record. -/
def recLookup (rec : List (String × Json)) (k : String) : Option Json :=
  (rec.find? (fun p => p.1 == k)).map (fun p => p.2)

/-- The keys of an assembled record. -/
def recKeys (rec : List (String × Json)) : List String :=
  rec.map (fun p => p.1)

/-- A concrete initial-search request used by several witnesses. -/
def searchReqW : Request :=
  { headers := [("X-Search-Query", "foo")], requestURI := "/twitter/_search",
    ctxCategory := some Category.search, ctxIndices := some ["twitter"] }

/-- The handler used in the C10 counterexample: it echoes the
`X-Search-Query` header it receives. -/
def cexHandler : Request → Response :=
  fun rq => { code := 200, headers := [], body := hGet rq.headers XSearchQuery }

/-- The request of the C10 counterexample: a well-escaped `X-Search-Query`
and an `X-Search-Click` value that fails unescaping. -/
def cexRequest : Request :=
  { headers := [("X-Search-Query", "hello%20world"), ("X-Search-Click", "%zz")],
    requestURI := "/idx/_search", ctxCategory := some Category.search,
    ctxIndices := some ["idx"] }

/-- A concrete follow-up response body (no hits) used by the C3 fixtures. -/
def followUpBody : String :=
  "\x7b\"took\":5,\"hits\":\x7b\"total\":0,\"hits\":[]\x7d\x7d"

/-- A concrete follow-up request (caller-supplied `X-Search-Id`). -/
def followUpReq : Request :=
  { headers := [("X-Search-Id", "abc"), ("X-Search-Click", "true"),
                ("X-Search-Click-Position", "3")],
    requestURI := "/twitter/_search", ctxCategory := some Category.search,
    ctxIndices := some ["twitter"] }

/-- A concrete initial-search upstream body whose hit carries the
underscore-prefixed `_id`/`_type`/`_source` keys. -/
def initialBodyW : String :=
  "\x7b\"took\":5,\"hits\":\x7b\"total\":1,\"hits\":[\x7b\"_id\":\"a\",\"_type\":\"doc\",\"_source\":\x7b\"title\":\"hello\"\x7d\x7d]\x7d\x7d"

/-- The decoded form of `initialBodyW` after field renaming. -/
def initialEsW : SearchResponse :=
  { took := 5,
    hits := { total := 1,
              hits := [{ source := [("title", Json.str "hello")], hitType := "doc", id := "a" }] } }

/-- A concrete two-query `_msearch` upstream body. -/
def mBodyW : String :=
  "\x7b\"responses\":[\x7b\"took\":1,\"hits\":\x7b\"total\":1,\"hits\":[\x7b\"_id\":\"a\",\"_type\":\"t\",\"_source\":\x7b\"x\":1\x7d\x7d]\x7d\x7d,\x7b\"took\":2,\"hits\":\x7b\"total\":0,\"hits\":[]\x7d\x7d]\x7d"

/-- The decoded form of `mBodyW` after field renaming. -/
def mValW : MSearchResponse :=
  { responses :=
      [{ took := 1,
         hits := { total := 1,
                   hits := [{ source := [("x", Json.num 1)], hitType := "t", id := "a" }] } },
       { took := 2, hits := { total := 0, hits := [] } }] }

/-- A concrete `_msearch` request. -/
def mReqW : Request :=
  { headers := [("X-Search-Id", "abc")], requestURI := "/a,b/_msearch",
    ctxCategory := some Category.search, ctxIndices := some ["a", "b"] }

/-- A concrete initial-search request. -/
def initialReqW : Request :=
  { headers := [("X-Search-Query", "foo")], requestURI := "/twitter/_search",
    ctxCategory := some Category.search, ctxIndices := some ["twitter"] }

/-- The store write produced for `initialBodyW`/`initialReqW`. -/
def initialOutW : String × List (String × Json) :=
  ("d1", [("took", Json.num 5), ("indices", Json.arr [Json.str "twitter"]),
          ("search_query", Json.str "foo"),
          ("hits_in_response", Json.arr [Json.obj [("id", Json.str "a"),
            ("type", Json.str "doc"),
            ("source", Json.str "\x7b\"title\":\"hello\"\x7d")]]),
          ("total_hits", Json.num 1), ("timestamp", Json.str "t0"),
          ("ip", Json.str "ip0")])

/-- The stored `hits_in_response` value of `initialOutW`. -/
def initialHitsW : Json :=
  Json.arr [Json.obj [("id", Json.str "a"), ("type", Json.str "doc"),
                      ("source", Json.str "\x7b\"title\":\"hello\"\x7d")]]

end Analytics

/-- A concrete healthy one-node environment for the bootstrap witness. -/
def logsEnvW : Logs.InitEnv :=
  { existsCheckFails := false, totalNodes := some 1, createFails := false }

namespace Analytics

/-- Finding the set key in the map branch of `hSet`. -/
theorem find?_set_mem (k v : String) : ∀ (hs : List (String × String)),
    hs.any (fun p => p.1 == k) = true →
    (hs.map (fun p => if p.1 == k then (k, v) else p)).find? (fun p => p.1 == k) = some (k, v)
  | [], h => by simp at h
  | p :: rest, h => by
    rw [List.map_cons]
    by_cases hp : (p.1 == k) = true
    · rw [if_pos hp]
      exact List.find?_cons_of_pos _ (by simp)
    · rw [if_neg hp]
      rw [List.find?_cons_of_neg _ (by simpa using hp)]
      have hr : rest.any (fun p => p.1 == k) = true := by
        rw [List.any_cons] at h
        rcases Bool.or_eq_true_iff.mp h with h' | h'
        · exact absurd h' hp
        · exact h'
      exact find?_set_mem k v rest hr

/-- Finding the set key in the append branch of `hSet`. -/
theorem find?_set_append (k v : String) : ∀ (hs : List (String × String)),
    hs.any (fun p => p.1 == k) = false →
    (hs ++ [(k, v)]).find? (fun p => p.1 == k) = some (k, v)
  | [], _ => by
    rw [List.nil_append]
    exact List.find?_cons_of_pos _ (by simp)
  | p :: rest, h => by
    rw [List.any_cons] at h
    have hp : (p.1 == k) = false := by
      cases hpk : (p.1 == k)
      · rfl
      · rw [hpk, Bool.true_or] at h
        exact absurd h (by simp)
    have hr : rest.any (fun p => p.1 == k) = false := by
      rw [hp, Bool.false_or] at h
      exact h
    rw [List.cons_append, List.find?_cons_of_neg _ (by simp [hp])]
    exact find?_set_append k v rest hr

/-- Setting a header key makes `Get` of that key return the new value. -/
theorem hGet_hSet (hs : List (String × String)) (k v : String) :
    hGet (hSet hs k v) k = v := by
  rw [hGet, hSet]
  by_cases hany : hs.any (fun p => p.1 == k) = true
  · rw [if_pos hany, find?_set_mem k v hs hany]
  · rw [if_neg hany, find?_set_append k v hs (Bool.not_eq_true _ ▸ Bool.of_not_eq_true hany)]

/-- Keys of an optional capability field. -/
theorem optField_keys (k : String) (o : Option Json) (x : String)
    (hx : x ∈ recKeys (optField k o)) : x = k := by
  cases o <;> simp [optField, recKeys] at hx
  exact hx

/-- Keys of the `click` field. -/
theorem clickField_keys (r : Request) (x : String)
    (hx : x ∈ recKeys (clickField r)) : x = "click" := by
  rw [clickField] at hx
  split at hx
  · simp [recKeys] at hx
  · split at hx <;> simp [recKeys] at hx
    exact hx

/-- Keys of the `click_position` field. -/
theorem clickPositionField_keys (r : Request) (x : String)
    (hx : x ∈ recKeys (clickPositionField r)) : x = "click_position" := by
  rw [clickPositionField] at hx
  split at hx
  · simp [recKeys] at hx
  · split at hx <;> simp [recKeys] at hx
    exact hx

/-- Keys of the `conversion` field. -/
theorem conversionField_keys (r : Request) (x : String)
    (hx : x ∈ recKeys (conversionField r)) : x = "conversion" := by
  rw [conversionField] at hx
  split at hx
  · simp [recKeys] at hx
  · split at hx <;> simp [recKeys] at hx
    exact hx

/-- Keys of the `custom_events` field. -/
theorem customEventsField_keys (r : Request) (x : String)
    (hx : x ∈ recKeys (customEventsField r)) : x = "custom_events" := by
  rw [customEventsField] at hx
  split at hx <;> simp [recKeys] at hx
  exact hx

end Analytics

/-- C7: the middleware chain assembled for the analytics routes is, in FIFO
order with the first element outermost, exactly: category classifier,
operation classifier, indices classifier, recorder, basic authenticator,
indices validator, operation validator, category validator, wrapped around
the terminal handler. -/
theorem analytics_chain_canonical_order :
    Analytics.list = [Analytics.MW.classifyCategory, Analytics.MW.classifyOp,
      Analytics.MW.classifyIndices, Analytics.MW.logsRecorder, Analytics.MW.basicAuth,
      Analytics.MW.validateIndices, Analytics.MW.validateOperation,
      Analytics.MW.validateCategory] ∧
    ∀ (α : Type) (interp : Analytics.MW → (α → α)) (h : α),
      Analytics.wrap interp h =
        interp Analytics.MW.classifyCategory (interp Analytics.MW.classifyOp
          (interp Analytics.MW.classifyIndices (interp Analytics.MW.logsRecorder
            (interp Analytics.MW.basicAuth (interp Analytics.MW.validateIndices
              (interp Analytics.MW.validateOperation
                (interp Analytics.MW.validateCategory h))))))) :=
  ⟨rfl, fun _ _ _ => rfl⟩

/-- C8: the `number_of_replicas` setting applied when the store bootstrap
creates the index equals `max 0 (nodes - 1)`, `nodes` being the node count of
the upstream cluster (at least one, since the cluster answered the call). -/
theorem initPlugin_replicas_max (nodes : Int) (h : 1 ≤ nodes) :
    Logs.numberOfReplicas nodes = max 0 (nodes - 1) := by
  rw [Logs.numberOfReplicas]
  omega

/-- Witness for C8 at a three-node cluster. -/
theorem initPlugin_replicas_max_witness :
    (1 : Int) ≤ 3 ∧ Logs.numberOfReplicas 3 = max 0 (3 - 1) :=
  ⟨by norm_num, initPlugin_replicas_max 3 (by norm_num)⟩

/-- C9: the store bootstrap is idempotent: after a successful call, a second
call whose existence check answers performs no creation, returns successfully
and leaves the cluster unchanged; starting without the index, the two calls
leave exactly one copy of it. -/
theorem initPlugin_idempotent (n : String) (env1 env2 : Logs.InitEnv)
    (s s1 : Logs.StoreState)
    (h1 : Logs.initPlugin n env1 s = (s1, true))
    (h2 : env2.existsCheckFails = false) :
    Logs.initPlugin n env2 s1 = (s1, true) ∧
      (n ∉ s.indices → s1.indices.count n = 1) := by
  rw [Logs.initPlugin] at h1
  by_cases he : env1.existsCheckFails = true
  · rw [if_pos he] at h1
    exact absurd (congrArg Prod.snd h1) (by simp)
  · rw [if_neg he] at h1
    by_cases hm : n ∈ s.indices
    · rw [if_pos hm] at h1
      have hs1 : s = s1 := congrArg Prod.fst h1
      constructor
      · rw [Logs.initPlugin, if_neg (by simp [h2]), if_pos (hs1 ▸ hm)]
      · intro hn
        exact absurd hm hn
    · rw [if_neg hm] at h1
      cases ht : env1.totalNodes with
      | none =>
        rw [ht] at h1
        exact absurd (congrArg Prod.snd h1) (by simp)
      | some k =>
        rw [ht] at h1
        by_cases hc : env1.createFails = true
        · rw [if_pos hc] at h1
          exact absurd (congrArg Prod.snd h1) (by simp)
        · rw [if_neg hc] at h1
          have hs1 : s1 = { indices := n :: s.indices } := (congrArg Prod.fst h1).symm
          constructor
          · rw [Logs.initPlugin, if_neg (by simp [h2]),
              if_pos (show n ∈ s1.indices by rw [hs1]; exact List.mem_cons_self _ _)]
          · intro hn
            rw [hs1]
            simp [List.count_cons_self, List.count_eq_zero.mpr hn]

namespace Analytics

/-- C1: with the request category classified and the header decoding clean,
when the category is not `Search`, or both `X-Search-Query` and `X-Search-Id`
are empty after unescaping, the recorder calls the inner handler directly:
the client sees exactly the upstream response (in particular no `X-Search-Id`
header is added), nothing is buffered and no background record task starts. -/
theorem recorder_passthrough (h : Request → Response) (uuidNew : String)
    (order : List String) (r : Request) (c : Category) (hs : List (String × String))
    (hcat : r.ctxCategory = some c)
    (hok : unescapeHeaders order r.headers = (hs, true))
    (hcond : c ≠ Category.search ∨
      (hGet hs XSearchQuery = "" ∧ hGet hs XSearchID = "")) :
    recorder h uuidNew order r =
      { resp := h { r with headers := hs }, spawned := none,
        trace := [Ev.innerHandlerCall] } := by
  unfold recorder
  rw [hcat]
  simp only [hok, if_neg (by simp : ¬(true = false))]
  rw [if_pos hcond]

/-- Witness for C1: a non-Search request passes through untouched. -/
theorem recorder_passthrough_witness :
    ({ headers := [("Accept", "*/*")], requestURI := "/_cat/indices",
       ctxCategory := some Category.cat, ctxIndices := some [] } : Request).ctxCategory
        = some Category.cat ∧
      unescapeHeaders ["Accept"] [("Accept", "*/*")] = ([("Accept", "*/*")], true) ∧
      recorder (fun _rq => { code := 200, headers := [("X-Upstream", "yes")], body := "ok" })
          "u1" ["Accept"]
          { headers := [("Accept", "*/*")], requestURI := "/_cat/indices",
            ctxCategory := some Category.cat, ctxIndices := some [] } =
        { resp := { code := 200, headers := [("X-Upstream", "yes")], body := "ok" },
          spawned := none, trace := [Ev.innerHandlerCall] } := by
  refine ⟨rfl, by decide, ?_⟩
  exact recorder_passthrough _ "u1" ["Accept"] _ Category.cat [("Accept", "*/*")]
    rfl (by decide) (Or.inl (by decide))

/-- The store write of the background task always uses the doc id the task
was started with. -/
theorem recordResponse_docID (docID searchID : String) (w : Response) (r : Request)
    (now ipAddr : String) (coords country : Option Json)
    (out : String × List (String × Json))
    (hrr : recordResponse docID searchID w r now ipAddr coords country = some out) :
    out.1 = docID := by
  rw [recordResponse] at hrr
  cases hp : parsedResponse r.requestURI (replaceEsFields w.body) with
  | none =>
    rw [hp] at hrr
    exact absurd hrr (by simp)
  | some es =>
    rw [hp] at hrr
    have hrr' : Option.map (fun rec => (docID, rec))
        (buildRecord es searchID r now ipAddr coords country) = some out := hrr
    cases hb : buildRecord es searchID r now ipAddr coords country with
    | none =>
      rw [hb] at hrr'
      exact absurd hrr' (by simp)
    | some rec =>
      rw [hb] at hrr'
      simp only [Option.map_some', Option.some.injEq] at hrr'
      rw [← hrr']

/-- C2: for a recorded request, the doc id is the unescaped `X-Search-Id`
header when non-empty and the freshly minted uuid otherwise; the client
response carries `X-Search-Id: <doc id>`, the spawned background task carries
the same doc id, and any store write the task performs uses that doc id. -/
theorem recorder_docId_roundtrip (h : Request → Response) (uuidNew : String)
    (order : List String) (r : Request) (hs : List (String × String))
    (hcat : r.ctxCategory = some Category.search)
    (hok : unescapeHeaders order r.headers = (hs, true))
    (hne : ¬(hGet hs XSearchQuery = "" ∧ hGet hs XSearchID = "")) :
    hGet (recorder h uuidNew order r).resp.headers XSearchID
        = (if hGet hs XSearchID = "" then uuidNew else hGet hs XSearchID) ∧
      (recorder h uuidNew order r).spawned =
        some { docID := if hGet hs XSearchID = "" then uuidNew else hGet hs XSearchID,
               searchID := hGet hs XSearchID,
               resp := h { r with headers := hs },
               req := { r with headers := hs } } ∧
      ∀ (w : Response) (req : Request) (now ipAddr : String) (coords country : Option Json)
        (out : String × List (String × Json)),
        recordResponse (if hGet hs XSearchID = "" then uuidNew else hGet hs XSearchID)
            (hGet hs XSearchID) w req now ipAddr coords country = some out →
        out.1 = (if hGet hs XSearchID = "" then uuidNew else hGet hs XSearchID) := by
  have hred : recorder h uuidNew order r =
      { resp := { code := (h { r with headers := hs }).code,
                  headers := hSet (h { r with headers := hs }).headers XSearchID
                    (if hGet hs XSearchID = "" then uuidNew else hGet hs XSearchID),
                  body := (h { r with headers := hs }).body },
        spawned := some { docID := if hGet hs XSearchID = "" then uuidNew else hGet hs XSearchID,
                          searchID := hGet hs XSearchID,
                          resp := h { r with headers := hs },
                          req := { r with headers := hs } },
        trace := [Ev.innerHandlerCall, Ev.clientHeaderWrite, Ev.clientStatusWrite,
                  Ev.clientBodyWrite, Ev.spawnRecordTask] } := by
    unfold recorder
    rw [hcat]
    simp only [hok, if_neg (by simp : ¬(true = false))]
    rw [if_neg (not_or.mpr ⟨by simp, hne⟩)]
  refine ⟨?_, ?_, ?_⟩
  · rw [hred]
    exact hGet_hSet _ _ _
  · rw [hred]
  · intro w req now ipAddr coords country out hrr
    exact recordResponse_docID _ _ w req now ipAddr coords country out hrr

/-- Witness for C2 at a caller-supplied `X-Search-Id`. -/
theorem recorder_docId_roundtrip_witness :
    ({ headers := [("X-Search-Id", "abc")], requestURI := "/twitter/_search",
       ctxCategory := some Category.search, ctxIndices := some ["twitter"] } :
        Request).ctxCategory = some Category.search ∧
      unescapeHeaders ["X-Search-Id"] [("X-Search-Id", "abc")]
        = ([("X-Search-Id", "abc")], true) ∧
      hGet (recorder (fun _rq => { code := 200, headers := [], body := "ok" }) "u1"
          ["X-Search-Id"]
          { headers := [("X-Search-Id", "abc")], requestURI := "/twitter/_search",
            ctxCategory := some Category.search, ctxIndices := some ["twitter"] }).resp.headers
          XSearchID = "abc" := by
  refine ⟨rfl, by decide, ?_⟩
  have h := (recorder_docId_roundtrip (fun _rq => { code := 200, headers := [], body := "ok" })
    "u1" ["X-Search-Id"]
    { headers := [("X-Search-Id", "abc")], requestURI := "/twitter/_search",
      ctxCategory := some Category.search, ctxIndices := some ["twitter"] }
    [("X-Search-Id", "abc")] rfl (by decide) (by decide)).1
  simpa using h

/-- C6: whenever the recorder spawns a background record task, its event
trace is exactly: inner handler call, client header write, client status
write, client body write, task spawn — the complete client response is
written before the background task starts, and no recording work precedes
the client write. -/
theorem recorder_client_write_before_spawn (h : Request → Response) (uuidNew : String)
    (order : List String) (r : Request)
    (hsp : (recorder h uuidNew order r).spawned ≠ none) :
    (recorder h uuidNew order r).trace =
      [Ev.innerHandlerCall, Ev.clientHeaderWrite, Ev.clientStatusWrite,
       Ev.clientBodyWrite, Ev.spawnRecordTask] := by
  cases hcat : r.ctxCategory with
  | none =>
    have hred : recorder h uuidNew order r =
        { resp := writeBackError "an error occurred while recording search request" 500,
          spawned := none, trace := [Ev.errorWrite] } := by
      unfold recorder
      rw [hcat]
    rw [hred] at hsp
    simp at hsp
  | some c =>
    cases hu : unescapeHeaders order r.headers with
    | mk hs ok =>
      cases ok with
      | false =>
        have hred : recorder h uuidNew order r =
            { resp := h { r with headers := hs }, spawned := none,
              trace := [Ev.innerHandlerCall] } := by
          unfold recorder
          rw [hcat]
          simp [hu]
        rw [hred] at hsp
        simp at hsp
      | true =>
        by_cases hcond : c ≠ Category.search ∨
          (hGet hs XSearchQuery = "" ∧ hGet hs XSearchID = "")
        · have hred : recorder h uuidNew order r =
              { resp := h { r with headers := hs }, spawned := none,
                trace := [Ev.innerHandlerCall] } := by
            unfold recorder
            rw [hcat]
            simp only [hu, if_neg (by simp : ¬(true = false))]
            rw [if_pos hcond]
          rw [hred] at hsp
          simp at hsp
        · have hred : (recorder h uuidNew order r).trace =
              [Ev.innerHandlerCall, Ev.clientHeaderWrite, Ev.clientStatusWrite,
               Ev.clientBodyWrite, Ev.spawnRecordTask] := by
            unfold recorder
            rw [hcat]
            simp only [hu, if_neg (by simp : ¬(true = false))]
            rw [if_neg hcond]
          exact hred

/-- Witness for C6 at a concrete recorded request. -/
theorem recorder_client_write_before_spawn_witness :
    (recorder (fun _rq => { code := 200, headers := [], body := "ok" }) "u1"
        ["X-Search-Query"] searchReqW).spawned ≠ none ∧
      (recorder (fun _rq => { code := 200, headers := [], body := "ok" }) "u1"
          ["X-Search-Query"] searchReqW).trace =
        [Ev.innerHandlerCall, Ev.clientHeaderWrite, Ev.clientStatusWrite,
         Ev.clientBodyWrite, Ev.spawnRecordTask] :=
  ⟨by decide, recorder_client_write_before_spawn _ "u1" ["X-Search-Query"] searchReqW
    (by decide)⟩

/-- Counterexample to C10 as stated: when the header map holds a well-escaped
`X-Search-*` header and a later-iterated one that fails unescaping, the inner
handler does not receive the headers as received — the earlier header has
already been replaced by its unescaped value. -/
theorem recorder_unescape_failure_cex :
    (recorder cexHandler "u1" ["X-Search-Query", "X-Search-Click"] cexRequest).resp
        ≠ cexHandler cexRequest ∧
      (recorder cexHandler "u1" ["X-Search-Query", "X-Search-Click"] cexRequest).resp.body
        = "hello world" ∧
      hGet cexRequest.headers XSearchQuery = "hello%20world" := by
  decide

/-- C10 (amended): when some `X-Search-*` header value fails URL-unescaping,
the recorder calls the inner handler with the headers as mutated so far
(headers unescaped before the failing one keep their unescaped values, the
rest are as received) and returns: no error status is written, no
`X-Search-Id` header is added, and no record task is ever spawned. -/
theorem recorder_unescape_failure (h : Request → Response) (uuidNew : String)
    (order : List String) (r : Request) (c : Category) (hs : List (String × String))
    (hcat : r.ctxCategory = some c)
    (hfail : unescapeHeaders order r.headers = (hs, false)) :
    recorder h uuidNew order r =
      { resp := h { r with headers := hs }, spawned := none,
        trace := [Ev.innerHandlerCall] } := by
  unfold recorder
  rw [hcat]
  simp [hfail]

/-- Witness for C10 (amended) at the counterexample request. -/
theorem recorder_unescape_failure_witness :
    cexRequest.ctxCategory = some Category.search ∧
      unescapeHeaders ["X-Search-Query", "X-Search-Click"] cexRequest.headers
        = ([("X-Search-Query", "hello world"), ("X-Search-Click", "%zz")], false) ∧
      recorder cexHandler "u1" ["X-Search-Query", "X-Search-Click"] cexRequest =
        { resp := cexHandler
            { cexRequest with
              headers := [("X-Search-Query", "hello world"), ("X-Search-Click", "%zz")] },
          spawned := none, trace := [Ev.innerHandlerCall] } :=
  ⟨rfl, by decide,
    recorder_unescape_failure cexHandler "u1" ["X-Search-Query", "X-Search-Click"]
      cexRequest Category.search
      [("X-Search-Query", "hello world"), ("X-Search-Click", "%zz")] rfl (by decide)⟩

end Analytics

/-- Witness for C9: bootstrapping a fresh one-node cluster twice leaves one
index and the second call succeeds without touching the cluster. -/
theorem initPlugin_idempotent_witness :
    Logs.initPlugin "idx" logsEnvW { indices := [] } = ({ indices := ["idx"] }, true) ∧
      logsEnvW.existsCheckFails = false ∧
      Logs.initPlugin "idx" logsEnvW { indices := ["idx"] } = ({ indices := ["idx"] }, true) ∧
      List.count "idx" ["idx"] = 1 := by
  refine ⟨by decide, by decide, ?_, ?_⟩
  · exact (initPlugin_idempotent "idx" logsEnvW logsEnvW { indices := [] }
      { indices := ["idx"] } (by decide) (by decide)).1
  · exact (initPlugin_idempotent "idx" logsEnvW logsEnvW { indices := [] }
      { indices := ["idx"] } (by decide) (by decide)).2 (by decide)

namespace Analytics

/-- Computation of the record assembly for a follow-up event (non-empty
`X-Search-Id`): only `took`, `ip`, the capability fields and the follow-up
fields are appended. -/
theorem buildRecord_followUp (es : SearchResponse) (searchID : String) (r : Request)
    (now ipAddr : String) (coords country : Option Json) (hid : searchID ≠ "") :
    buildRecord es searchID r now ipAddr coords country =
      some ([("took", Json.num es.took)] ++ [] ++
            [("ip", Json.str ipAddr)] ++ optField "location" coords ++
            optField "country" country ++ clickField r ++ clickPositionField r ++
            conversionField r ++ customEventsField r) := by
  rw [buildRecord, if_neg hid]

/-- Computation of the record assembly for an initial search (empty
`X-Search-Id`) when the indices context lookup succeeds. -/
theorem buildRecord_initial (es : SearchResponse) (r : Request) (idxs : List String)
    (now ipAddr : String) (coords country : Option Json)
    (hci : r.ctxIndices = some idxs) :
    buildRecord es "" r now ipAddr coords country =
      some ([("took", Json.num es.took)] ++
            ([("indices", Json.arr (idxs.map Json.str)),
              ("search_query", Json.str (hGet r.headers XSearchQuery)),
              ("hits_in_response", Json.arr (hitsRecord es)),
              ("total_hits", Json.num es.hits.total),
              ("timestamp", Json.str now)] ++
             (if (parseKV (hGet r.headers XSearchFilters)).isEmpty then []
              else [("search_filters", kvToJson (parseKV (hGet r.headers XSearchFilters)))])) ++
            [("ip", Json.str ipAddr)] ++ optField "location" coords ++
            optField "country" country ++ clickField r ++ clickPositionField r ++
            conversionField r ++ customEventsField r) := by
  rw [buildRecord, if_pos rfl, hci]

/-- Record lookup walks past an entry with a different key. -/
theorem recLookup_cons_neg (k' : String) (v : Json) (rest : List (String × Json))
    (k : String) (h : (k' == k) = false) :
    recLookup ((k', v) :: rest) k = recLookup rest k := by
  rw [recLookup, recLookup, List.find?_cons_of_neg]
  simp [h]

/-- Record lookup finds the entry with the looked-up key. -/
theorem recLookup_cons_self (k : String) (v : Json) (rest : List (String × Json)) :
    recLookup ((k, v) :: rest) k = some v := by
  have hfind : List.find? (fun p => p.1 == k) ((k, v) :: rest) = some (k, v) :=
    List.find?_cons_of_pos _ (by simp)
  rw [recLookup, hfind]
  rfl

/-- A successful record lookup means the key is among the record's keys. -/
theorem recLookup_some_mem (rec : List (String × Json)) (k : String) (v : Json)
    (h : recLookup rec k = some v) : k ∈ recKeys rec := by
  rw [recLookup] at h
  cases hf : rec.find? (fun p => p.1 == k) with
  | none =>
    rw [hf] at h
    cases h
  | some p =>
    have hp0 := List.find?_some hf
    have hk : p.1 = k := by simpa using hp0
    have hmem : p ∈ rec := List.mem_of_find?_eq_some hf
    rw [recKeys]
    exact hk ▸ List.mem_map_of_mem _ hmem

/-- Every key of a follow-up record is `took`, `ip`, a capability field or a
follow-up field. -/
theorem recordResponse_followUp_keys (docID searchID : String) (w : Response)
    (r : Request) (now ipAddr : String) (coords country : Option Json)
    (out : String × List (String × Json))
    (hid : searchID ≠ "")
    (hrr : recordResponse docID searchID w r now ipAddr coords country = some out)
    (k : String) (hk : k ∈ recKeys out.2) :
    k ∈ ["took", "ip", "location", "country", "click", "click_position",
         "conversion", "custom_events"] := by
  rw [recordResponse] at hrr
  cases hp : parsedResponse r.requestURI (replaceEsFields w.body) with
  | none =>
    rw [hp] at hrr
    exact absurd hrr (by simp)
  | some es =>
    rw [hp] at hrr
    have hrr' : Option.map (fun rec => (docID, rec))
        (buildRecord es searchID r now ipAddr coords country) = some out := hrr
    rw [buildRecord_followUp es searchID r now ipAddr coords country hid] at hrr'
    simp only [Option.map_some', Option.some.injEq] at hrr'
    rw [← hrr'] at hk
    have hk' : k ∈ recKeys ([("took", Json.num es.took)] ++ [] ++
        [("ip", Json.str ipAddr)] ++ optField "location" coords ++
        optField "country" country ++ clickField r ++ clickPositionField r ++
        conversionField r ++ customEventsField r) := hk
    simp only [recKeys, List.map_append, List.mem_append] at hk'
    rcases hk' with (((((((hk' | hk') | hk') | hk') | hk') | hk') | hk') | hk') | hk'
    · simp at hk'
      simp [hk']
    · simp at hk'
    · simp at hk'
      simp [hk']
    · have := optField_keys _ _ _ hk'
      simp [this]
    · have := optField_keys _ _ _ hk'
      simp [this]
    · have := clickField_keys _ _ hk'
      simp [this]
    · have := clickPositionField_keys _ _ hk'
      simp [this]
    · have := conversionField_keys _ _ hk'
      simp [this]
    · have := customEventsField_keys _ _ hk'
      simp [this]

/-- Every follow-up record carries the `took` field: the record assembly
writes it unconditionally before the `searchID` test. -/
theorem recordResponse_followUp_took (docID searchID : String) (w : Response)
    (r : Request) (now ipAddr : String) (coords country : Option Json)
    (out : String × List (String × Json))
    (hid : searchID ≠ "")
    (hrr : recordResponse docID searchID w r now ipAddr coords country = some out) :
    "took" ∈ recKeys out.2 := by
  rw [recordResponse] at hrr
  cases hp : parsedResponse r.requestURI (replaceEsFields w.body) with
  | none =>
    rw [hp] at hrr
    exact absurd hrr (by simp)
  | some es =>
    rw [hp] at hrr
    have hrr' : Option.map (fun rec => (docID, rec))
        (buildRecord es searchID r now ipAddr coords country) = some out := hrr
    rw [buildRecord_followUp es searchID r now ipAddr coords country hid] at hrr'
    simp only [Option.map_some', Option.some.injEq] at hrr'
    rw [← hrr']
    simp [recKeys]

/-- C3 (amended): a follow-up record (non-empty `X-Search-Id`) contains none
of `indices`, `search_query`, `hits_in_response`, `total_hits`, `timestamp`
or `search_filters`; besides the follow-up fields (`click`,
`click_position`, `conversion`, `custom_events`) and `ip`/`location`/
`country`, it also always carries the `took` field. -/
theorem followUp_record_fields (docID searchID : String) (w : Response) (r : Request)
    (now ipAddr : String) (coords country : Option Json)
    (out : String × List (String × Json))
    (hid : searchID ≠ "")
    (hrr : recordResponse docID searchID w r now ipAddr coords country = some out) :
    "took" ∈ recKeys out.2 ∧
    (∀ k, k ∈ recKeys out.2 →
       k ∈ ["took", "ip", "location", "country", "click", "click_position",
            "conversion", "custom_events"]) ∧
    ∀ k, k ∈ ["indices", "search_query", "hits_in_response", "total_hits",
              "timestamp", "search_filters"] → k ∉ recKeys out.2 := by
  have hsub : ∀ k, k ∈ recKeys out.2 →
      k ∈ ["took", "ip", "location", "country", "click", "click_position",
           "conversion", "custom_events"] :=
    fun k hk => recordResponse_followUp_keys docID searchID w r now ipAddr coords country
      out hid hrr k hk
  refine ⟨recordResponse_followUp_took docID searchID w r now ipAddr coords country
    out hid hrr, hsub, ?_⟩
  intro k hk6 hkmem
  have hal := hsub k hkmem
  fin_cases hk6 <;> exact absurd hal (by decide)

/-- Counterexample to C3 as stated: at a concrete follow-up request the
stored record's keys are `took`, `ip`, `click`, `click_position` — the
`took` key is recorded although it is not a follow-up field and not
`ip`/`location`/`country`. -/
theorem followUp_only_fields_cex :
    (recordResponse "abc" "abc" { code := 200, headers := [], body := followUpBody }
        followUpReq "t0" "ip0" none none).map (fun out => recKeys out.2)
      = some ["took", "ip", "click", "click_position"] ∧
    "took" ∉ ["click", "click_position", "conversion", "custom_events", "ip",
              "location", "country"] :=
  ⟨rfl, by decide⟩

/-- Witness for C3 (amended) at a concrete follow-up request. -/
theorem followUp_record_fields_witness :
    ("abc" : String) ≠ "" ∧
      recordResponse "abc" "abc" { code := 200, headers := [], body := followUpBody }
          followUpReq "t0" "ip0" none none
        = some ("abc", [("took", Json.num 5), ("ip", Json.str "ip0"),
                        ("click", Json.bool true), ("click_position", Json.num 3)]) ∧
      "took" ∈ recKeys [("took", Json.num 5), ("ip", Json.str "ip0"),
                        ("click", Json.bool true), ("click_position", Json.num 3)] ∧
      "indices" ∉ recKeys [("took", Json.num 5), ("ip", Json.str "ip0"),
                           ("click", Json.bool true), ("click_position", Json.num 3)] := by
  refine ⟨by decide, rfl, ?_, ?_⟩
  · exact (followUp_record_fields "abc" "abc"
      { code := 200, headers := [], body := followUpBody } followUpReq "t0" "ip0" none none
      ("abc", [("took", Json.num 5), ("ip", Json.str "ip0"), ("click", Json.bool true),
               ("click_position", Json.num 3)]) (by decide) rfl).1
  · exact (followUp_record_fields "abc" "abc"
      { code := 200, headers := [], body := followUpBody } followUpReq "t0" "ip0" none none
      ("abc", [("took", Json.num 5), ("ip", Json.str "ip0"), ("click", Json.bool true),
               ("click_position", Json.num 3)]) (by decide) rfl).2.2 "indices" (by decide)

/-- C4: whenever a stored record carries a `hits_in_response` value, that
value lists exactly the first at-most-ten hits of the parsed response, each
hit an object with exactly the keys `id`, `type` and `source` (never the
underscore-prefixed upstream keys), `source` holding the hit's serialized
JSON. -/
theorem record_hits_shape (docID searchID : String) (w : Response) (r : Request)
    (now ipAddr : String) (coords country : Option Json) (es : SearchResponse)
    (out : String × List (String × Json)) (v : Json)
    (hes : parsedResponse r.requestURI (replaceEsFields w.body) = some es)
    (hrr : recordResponse docID searchID w r now ipAddr coords country = some out)
    (hv : recLookup out.2 "hits_in_response" = some v) :
    v = Json.arr ((es.hits.hits.take 10).map hitJson) ∧
      ((es.hits.hits.take 10).map hitJson).length ≤ 10 ∧
      ∀ hj, hj ∈ (es.hits.hits.take 10).map hitJson →
        ∃ i t s, hj = Json.obj [("id", Json.str i), ("type", Json.str t),
                                ("source", Json.str s)] := by
  have hlen : ((es.hits.hits.take 10).map hitJson).length ≤ 10 := by
    rw [List.length_map]
    exact List.length_take_le 10 _
  have hshape : ∀ hj, hj ∈ (es.hits.hits.take 10).map hitJson →
      ∃ i t s, hj = Json.obj [("id", Json.str i), ("type", Json.str t),
                              ("source", Json.str s)] := by
    intro hj hmem
    rcases List.mem_map.mp hmem with ⟨h0, _, rfl⟩
    exact ⟨h0.id, h0.hitType, serializeJson (Json.obj (sortByKey h0.source)), rfl⟩
  refine ⟨?_, hlen, hshape⟩
  by_cases hid : searchID = ""
  · subst hid
    have hrr2 := hrr
    rw [recordResponse, hes] at hrr2
    have hrr' : Option.map (fun rec => (docID, rec))
        (buildRecord es "" r now ipAddr coords country) = some out := hrr2
    cases hci : r.ctxIndices with
    | none =>
      rw [buildRecord, if_pos rfl, hci] at hrr'
      cases (show (none : Option (String × List (String × Json))) = some out from hrr')
    | some idxs =>
      rw [buildRecord_initial es r idxs now ipAddr coords country hci] at hrr'
      simp only [Option.map_some', Option.some.injEq] at hrr'
      rw [← hrr'] at hv
      simp only [List.cons_append, List.nil_append, List.append_assoc] at hv
      rw [recLookup_cons_neg _ _ _ _ (by decide), recLookup_cons_neg _ _ _ _ (by decide),
          recLookup_cons_neg _ _ _ _ (by decide), recLookup_cons_self] at hv
      simp only [Option.some.injEq] at hv
      rw [← hv]
      rfl
  · have hkey := recLookup_some_mem out.2 "hits_in_response" v hv
    have hal := recordResponse_followUp_keys docID searchID w r now ipAddr coords country
      out hid hrr "hits_in_response" hkey
    exact absurd hal (by decide)

/-- Witness for C4 at a concrete search whose upstream body carries
`_id`/`_type`/`_source` keys. -/
theorem record_hits_shape_witness :
    parsedResponse initialReqW.requestURI
        (replaceEsFields ({ code := 200, headers := [], body := initialBodyW } :
          Response).body) = some initialEsW ∧
      recordResponse "d1" "" { code := 200, headers := [], body := initialBodyW }
        initialReqW "t0" "ip0" none none = some initialOutW ∧
      recLookup initialOutW.2 "hits_in_response" = some initialHitsW ∧
      initialHitsW = Json.arr ((initialEsW.hits.hits.take 10).map hitJson) := by
  refine ⟨rfl, rfl, rfl, ?_⟩
  exact (record_hits_shape "d1" "" { code := 200, headers := [], body := initialBodyW }
    initialReqW "t0" "ip0" none none initialEsW initialOutW initialHitsW rfl rfl rfl).1

/-- C5: the background task decodes an `_msearch` body as a response list and
builds the record from the first sub-response only; any other body is decoded
as a single response; when decoding fails the task writes nothing to the
store. -/
theorem recordResponse_msearch_first (docID searchID : String) (w : Response)
    (r : Request) (now ipAddr : String) (coords country : Option Json) :
    (∀ m, containsSubstr r.requestURI "_msearch" = true →
       decodeMSearchResponse (replaceEsFields w.body) = some m →
       recordResponse docID searchID w r now ipAddr coords country =
         (buildRecord (m.responses.headD zeroSearchResponse) searchID r now ipAddr
             coords country).map (fun rec => (docID, rec))) ∧
    (∀ es, containsSubstr r.requestURI "_msearch" = false →
       decodeSearchResponse (replaceEsFields w.body) = some es →
       recordResponse docID searchID w r now ipAddr coords country =
         (buildRecord es searchID r now ipAddr coords country).map
           (fun rec => (docID, rec))) ∧
    (parsedResponse r.requestURI (replaceEsFields w.body) = none →
       recordResponse docID searchID w r now ipAddr coords country = none) := by
  refine ⟨?_, ?_, ?_⟩
  · intro m hm hdec
    have hp : parsedResponse r.requestURI (replaceEsFields w.body)
        = some (m.responses.headD zeroSearchResponse) := by
      rw [parsedResponse, if_pos hm, hdec]
      rfl
    rw [recordResponse, hp]
  · intro es hm hdec
    have hp : parsedResponse r.requestURI (replaceEsFields w.body) = some es := by
      rw [parsedResponse, if_neg (by simp [hm]), hdec]
    rw [recordResponse, hp]
  · intro hp
    rw [recordResponse, hp]

/-- Witness for C5 at a concrete two-query `_msearch` body. -/
theorem recordResponse_msearch_first_witness :
    containsSubstr mReqW.requestURI "_msearch" = true ∧
      decodeMSearchResponse (replaceEsFields
        ({ code := 200, headers := [], body := mBodyW } : Response).body) = some mValW ∧
      recordResponse "abc" "abc" { code := 200, headers := [], body := mBodyW } mReqW
          "t0" "ip0" none none =
        (buildRecord (mValW.responses.headD zeroSearchResponse) "abc" mReqW "t0" "ip0"
            none none).map (fun rec => ("abc", rec)) := by
  refine ⟨rfl, rfl, ?_⟩
  exact (recordResponse_msearch_first "abc" "abc"
    { code := 200, headers := [], body := mBodyW } mReqW "t0" "ip0" none none).1
    mValW rfl rfl

end Analytics
